import Mathlib

/-!
Verification development for the getpass-backend service (src/main.py).

The Python source is shallowly embedded below.  External collaborators are
treated as the spec treats them: the Gregorian-to-Hijri numeric conversion is
an abstract pure function, PDF conversion / PDF merge / ZIP packaging are
boolean success oracles, and the filesystem is reduced to the list of files
written under the fixed output directory.  Everything else (date parsing,
placeholder resolution, document filling, the overflow-table writer, the
endpoint control flow with its exception handling) is modelled directly from
the code.
-/

set_option maxRecDepth 4000

namespace GetPass

/-! ### Small string utilities (structural, kernel-computable)

These implement the exact Python string primitives the source uses:
`str.replace('Z', '+00:00')`, `str.split('/')`, `key in text`,
`str.replace(key, value)` and `str.strip()`. -/

/-- Character-wise implementation of the single-character replacement
`date_str.replace('Z', '+00:00')` from src/main.py line 92. -/
def replaceZ (s : String) : String :=
  String.mk (s.data.foldr
    (fun c acc => if c = 'Z' then '+' :: '0' :: '0' :: ':' :: '0' :: '0' :: acc else c :: acc) [])

/-- Auxiliary splitter: Python `str.split(sep)` for a single-character
separator, accumulating the current chunk. -/
def splitAux (sep : Char) : List Char → List Char → List String
  | [], acc => [String.mk acc.reverse]
  | c :: cs, acc =>
      if c = sep then String.mk acc.reverse :: splitAux sep cs []
      else splitAux sep cs (c :: acc)

/-- Python `s.split(sep)` for a one-character separator (used as `split('/')`). -/
def splitOnChar (sep : Char) (s : String) : List String :=
  splitAux sep s.data []

/-- Does the pattern occur at the head of the text? -/
def startsWithL : List Char → List Char → Bool
  | [], _ => true
  | _ :: _, [] => false
  | p :: ps, c :: cs => p == c && startsWithL ps cs

/-- Python `pat in text` (substring containment). -/
def hasSubL (pat : List Char) : List Char → Bool
  | [] => startsWithL pat []
  | c :: cs => startsWithL pat (c :: cs) || hasSubL pat cs

/-- Python `pat in text` on strings. -/
def occursIn (pat s : String) : Bool := hasSubL pat.data s.data

/-- Fuelled replacement of every occurrence of `pat` by `sub`
(Python `text.replace(pat, sub)` for nonempty `pat`); the fuel is the text
length, enough to consume one character per step. -/
def replaceAllAux (pat sub : List Char) : Nat → List Char → List Char
  | _, [] => []
  | 0, cs => cs
  | Nat.succ fuel, c :: cs =>
      if pat ≠ [] ∧ startsWithL pat (c :: cs) then
        sub ++ replaceAllAux pat sub fuel (List.drop (pat.length - 1) cs)
      else c :: replaceAllAux pat sub fuel cs

/-- Python `text.replace(pat, sub)` (all occurrences; `pat` nonempty in the
source, where patterns are the fixed placeholder keys). -/
def replaceAllStr (pat sub text : String) : String :=
  String.mk (replaceAllAux pat.data sub.data text.data.length text.data)

/-- Whitespace recognizer for Python `str.strip()` (ASCII whitespace). -/
def isSpaceChar (c : Char) : Bool :=
  c == ' ' || c == '\t' || c == '\n' || c == '\r' || c == '\x0b' || c == '\x0c'

/-- Python `s.strip()`. -/
def trimStr (s : String) : String :=
  String.mk (((s.data.dropWhile isSpaceChar).reverse.dropWhile isSpaceChar).reverse)

/-- Python format `f"{n:02d}"` for a nonnegative integer. -/
def pad2 (n : Nat) : String :=
  if n < 10 then "0" ++ Nat.repr n else Nat.repr n

/-! ### Gregorian calendar arithmetic (embedding of `datetime.date`) -/

/-- Gregorian leap-year rule (as in Python's proleptic Gregorian calendar). -/
def isLeap (y : Nat) : Bool :=
  (y % 4 == 0 && y % 100 != 0) || y % 400 == 0

/-- Days in a Gregorian month. -/
def daysInMonth (y m : Nat) : Nat :=
  if m == 2 then (if isLeap y then 29 else 28)
  else if m == 4 || m == 6 || m == 9 || m == 11 then 30
  else 31

/-- Days in year `y` strictly before month `m`. -/
def daysBeforeMonth (y m : Nat) : Nat :=
  (List.range (m - 1)).foldl (fun acc k => acc + daysInMonth y (k + 1)) 0

/-- Proleptic-Gregorian ordinal (rata die): `datetime.date(y,m,d).toordinal()`.
Ordinal 1 is 0001-01-01. -/
def toOrdinal (y m d : Nat) : Nat :=
  let n := y - 1
  (365 * n + n / 4 + n / 400 - n / 100) + daysBeforeMonth y m + d

/-- Python `datetime.date(y,m,d).weekday()`: Monday = 0, ..., Sunday = 6.
0001-01-01 (ordinal 1) is a Monday. -/
def pyWeekday (y m d : Nat) : Nat :=
  (toOrdinal y m d + 6) % 7

/-! ### `datetime.fromisoformat` (embedding of the stdlib parser)

The parser accepts the ISO core grammar the service receives:
`YYYY-MM-DD`, optionally followed by a single separator character and a time
`HH[:MM[:SS]]` with an optional `+HH:MM` / `-HH:MM` offset, with the calendar
and range validation `datetime` performs (year 1..9999, hour < 24, etc.). -/

/-- Parse one decimal digit. -/
def digitVal (c : Char) : Option Nat :=
  if c.isDigit then some (c.toNat - 48) else none

/-- Parse exactly two decimal digits. -/
def parse2 : List Char → Option (Nat × List Char)
  | c1 :: c2 :: rest =>
      match digitVal c1, digitVal c2 with
      | some a, some b => some (10 * a + b, rest)
      | _, _ => none
  | _ => none

/-- Parse exactly four decimal digits. -/
def parse4 : List Char → Option (Nat × List Char)
  | c1 :: c2 :: c3 :: c4 :: rest =>
      match digitVal c1, digitVal c2, digitVal c3, digitVal c4 with
      | some a, some b, some c, some d => some (1000 * a + 100 * b + 10 * c + d, rest)
      | _, _, _, _ => none
  | _ => none

/-- Validate an optional trailing UTC-offset `±HH:MM`. -/
def parseOffset : List Char → Bool
  | [] => true
  | c :: rest =>
      if c == '+' || c == '-' then
        match parse2 rest with
        | some (oh, r1) =>
            (match r1 with
             | ':' :: r2 =>
                 match parse2 r2 with
                 | some (om, r3) => decide (oh < 24) && decide (om < 60) && r3.isEmpty
                 | none => false
             | _ => false)
        | none => false
      else false

/-- Validate a time-of-day part `HH[:MM[:SS]]` plus optional offset. -/
def parseTimePart (cs : List Char) : Bool :=
  match parse2 cs with
  | none => false
  | some (hh, r1) =>
      decide (hh < 24) &&
      (match r1 with
       | ':' :: r2 =>
           (match parse2 r2 with
            | none => false
            | some (mi, r3) =>
                decide (mi < 60) &&
                (match r3 with
                 | ':' :: r4 =>
                     (match parse2 r4 with
                      | none => false
                      | some (ss, r5) => decide (ss < 60) && parseOffset r5)
                 | _ => parseOffset r3))
       | _ => parseOffset r1)

/-- `datetime.fromisoformat` restricted to the ISO core grammar: returns the
calendar date `(year, month, day)` when the string is a parsable, valid
calendar date and `none` otherwise. -/
def fromisoformat (s : String) : Option (Nat × Nat × Nat) :=
  match parse4 s.data with
  | none => none
  | some (y, r1) =>
      match r1 with
      | '-' :: r2 =>
          (match parse2 r2 with
           | none => none
           | some (m, r3) =>
               match r3 with
               | '-' :: r4 =>
                   (match parse2 r4 with
                    | none => none
                    | some (d, r5) =>
                        let okDate := decide (1 ≤ y) && decide (1 ≤ m) && decide (m ≤ 12) &&
                          decide (1 ≤ d) && decide (d ≤ daysInMonth y m)
                        let okRest := match r5 with
                          | [] => true
                          | _ :: tcs => parseTimePart tcs
                        if okDate && okRest then some (y, m, d) else none)
               | _ => none)
      | _ => none

/-! ### The date converter (`convert_to_hijri`, src/main.py lines 85-118) -/

/-- Result of the external `hijri_converter` routine for one Gregorian date.
The spec treats the conversion as an abstract pure function. -/
structure HijriDate where
  year : Nat
  month : Nat
  day : Nat
  deriving DecidableEq

/-- The fixed Arabic day-name table (src/main.py line 83):
Sunday, Monday, Tuesday, Wednesday, Thursday, Friday, Saturday. -/
def ARABIC_DAY_NAMES : List String :=
  ["الأحد", "الإثنين", "الثلاثاء", "الأربعاء", "الخميس", "الجمعة", "السبت"]

/-- `(hijri_date_str, arabic_day_name, gregorian_date_str)`. -/
abbrev DateInfo := String × String × String

/-- `convert_to_hijri` (src/main.py lines 85-118): parse the date string
(after replacing `Z` with `+00:00`), look up the Arabic day name at index
`(weekday + 1) % 7`, convert to Hijri via the external routine `toHijri`,
and format both dates; a parse failure raises
`ValueError(f"Invalid date format: {date_str}")`, modelled as `Except.error`
carrying the exception message. -/
def convert_to_hijri (toHijri : Nat → Nat → Nat → HijriDate) (date_str : String) :
    Except String DateInfo :=
  match fromisoformat (replaceZ date_str) with
  | none => .error ("Invalid date format: " ++ date_str)
  | some (y, m, d) =>
      let dow := pyWeekday y m d
      let arabic_day_index := (dow + 1) % 7
      let arabic_day_name := ARABIC_DAY_NAMES.getD arabic_day_index ""
      let h := toHijri y m d
      let hijri_date_str := pad2 h.day ++ "/" ++ pad2 h.month ++ "/" ++ Nat.repr h.year
      let gregorian_date_str := pad2 d ++ "/" ++ pad2 m ++ "/" ++ Nat.repr y
      .ok (hijri_date_str, arabic_day_name, gregorian_date_str)

/-- Is an `Except` value a success? -/
def isOkE {ε α : Type} : Except ε α → Bool
  | .ok _ => true
  | .error _ => false

/-- A concrete instantiation of the external Hijri conversion, used only to
evaluate witnesses (the theorems quantify over the conversion function). -/
def th0 : Nat → Nat → Nat → HijriDate := fun y m d => ⟨y, m, d⟩

/-- C5: the date converter fails with the invalid-date-format error exactly
when the input string cannot be parsed as a calendar date; every parsable
input yields the (Hijri, Arabic weekday, Gregorian) triple without raising. -/
theorem convert_error_iff_unparsable (toHijri : Nat → Nat → Nat → HijriDate) (s : String) :
    isOkE (convert_to_hijri toHijri s) = (fromisoformat (replaceZ s)).isSome ∧
    (convert_to_hijri toHijri s = .error ("Invalid date format: " ++ s) ∨
      ∃ h dn g, convert_to_hijri toHijri s = .ok (h, dn, g)) := by
  cases hf : fromisoformat (replaceZ s) with
  | none =>
      constructor
      · simp [convert_to_hijri, hf, isOkE]
      · exact Or.inl (by simp [convert_to_hijri, hf])
  | some ymd =>
      obtain ⟨y, m, d⟩ := ymd
      have he : convert_to_hijri toHijri s = .ok
          (pad2 (toHijri y m d).day ++ "/" ++ pad2 (toHijri y m d).month ++ "/" ++
             Nat.repr (toHijri y m d).year,
           ARABIC_DAY_NAMES.getD ((pyWeekday y m d + 1) % 7) "",
           pad2 d ++ "/" ++ pad2 m ++ "/" ++ Nat.repr y) := by
        unfold convert_to_hijri; rw [hf]
      constructor
      · simp [he, hf, isOkE]
      · exact Or.inr ⟨_, _, _, he⟩

/-- C6: for every parsable date, the Arabic weekday name returned by the
converter is the entry of the fixed 7-element day-name table at index
`(weekday + 1) % 7`, a deterministic function of the parsed date. -/
theorem arabic_weekday_lookup (toHijri : Nat → Nat → Nat → HijriDate) (s : String)
    (y m d : Nat) (h : fromisoformat (replaceZ s) = some (y, m, d)) :
    ARABIC_DAY_NAMES.length = 7 ∧ (pyWeekday y m d + 1) % 7 < 7 ∧
    ∃ hs gs, convert_to_hijri toHijri s =
      .ok (hs, ARABIC_DAY_NAMES.getD ((pyWeekday y m d + 1) % 7) "", gs) := by
  refine ⟨rfl, Nat.mod_lt _ (by omega), ?_⟩
  have he : convert_to_hijri toHijri s = .ok
      (pad2 (toHijri y m d).day ++ "/" ++ pad2 (toHijri y m d).month ++ "/" ++
         Nat.repr (toHijri y m d).year,
       ARABIC_DAY_NAMES.getD ((pyWeekday y m d + 1) % 7) "",
       pad2 d ++ "/" ++ pad2 m ++ "/" ++ Nat.repr y) := by
    unfold convert_to_hijri; rw [h]
  exact ⟨_, _, he⟩

/-- Witness for C6 at the concrete date 2024-01-01 (a Monday, weekday 0,
table index 1). -/
theorem arabic_weekday_lookup_witness :
    fromisoformat (replaceZ "2024-01-01") = some (2024, 1, 1) ∧
    (ARABIC_DAY_NAMES.length = 7 ∧ (pyWeekday 2024 1 1 + 1) % 7 < 7 ∧
     ∃ hs gs, convert_to_hijri th0 "2024-01-01" =
       .ok (hs, ARABIC_DAY_NAMES.getD ((pyWeekday 2024 1 1 + 1) % 7) "", gs)) :=
  ⟨by decide, arabic_weekday_lookup th0 "2024-01-01" 2024 1 1 (by decide)⟩

/-! ### Python exceptions that can escape the modelled code -/

/-- Exceptions of the endpoint body: `fastapi.HTTPException` (a subclass of
`Exception`) and `IndexError` from `people[0]` on an empty list. -/
inductive Exn where
  | httpExc (status : Nat) (detail : String)
  | indexError
  deriving DecidableEq

/-- Python `str(e)` for the exceptions above: starlette's `HTTPException`
prints as `f"{status_code}: {detail}"`, an `IndexError` from list indexing
as `"list index out of range"`. -/
def excStr : Exn → String
  | .httpExc status detail => Nat.repr status ++ ": " ++ detail
  | .indexError => "list index out of range"

/-! ### Data model (src/main.py lines 34-44) -/

/-- Request person record. -/
structure Person where
  name : String
  nationality : String
  id_number : String
  deriving DecidableEq

/-! ### The placeholder resolver (src/main.py lines 142-186) -/

/-- The date-component replacements (src/main.py lines 143-151), splitting
the two formatted date strings on `/`. -/
def baseReplacements (di : DateInfo) : List (String × String) :=
  let hijri_date_str := di.1
  let day := di.2.1
  let gregorian_date_str := di.2.2
  let hp := splitOnChar '/' hijri_date_str
  let gp := splitOnChar '/' gregorian_date_str
  [("(اليوم)", day),
   ("[D]", hp.getD 0 ""), ("[M]", hp.getD 1 ""), ("[Y]", hp.getD 2 ""),
   ("[d]", gp.getD 0 ""), ("[m]", gp.getD 1 ""), ("[yyyy]", gp.getD 2 "")]

/-- The visitor-count label placeholder key (src/main.py line 155). -/
def countLabelKey : String := "الموضح هوياتهم بالبيان المرفق وعددهم (ع)"

/-- Its replacement: the fixed label with the two-digit zero-padded count and
the checkbox marker (src/main.py line 155). -/
def countLabelValue (n : Nat) : String :=
  "الموضح هوياتهم بالبيان المرفق وعددهم (" ++ pad2 n ++ ") ☒"

/-- The replacement mapping of `process_document` (src/main.py lines
142-186), as an insertion-ordered association list (Python dicts preserve
insertion order).  With an empty people list the `else` branch evaluates
`people[0]` / `people[-1]`, raising `IndexError`. -/
def buildReplacements (di : DateInfo) (people : List Person) :
    Except Exn (List (String × String)) :=
  let base := baseReplacements di ++ [(countLabelKey, countLabelValue people.length)]
  match people with
  | [p] =>
      .ok (base ++
        [("(الزائر1)", p.name), ("(الهويه1)", p.id_number), ("(الجنسيه1)", p.nationality),
         ("(الزائر2)", ""), ("(الهويه2)", ""), ("(الجنسيه2)", ""),
         ("(اولهم)", ""), ("(اخرهم)", "")])
  | [p, q] =>
      .ok (base ++
        [("(الزائر1)", p.name), ("(الهويه1)", p.id_number), ("(الجنسيه1)", p.nationality),
         ("(الزائر2)", q.name), ("(الهويه2)", q.id_number), ("(الجنسيه2)", q.nationality),
         ("(اولهم)", ""), ("(اخرهم)", "")])
  | _ =>
      match people.head?, people.getLast? with
      | some p0, some pl =>
          .ok (base ++
            [("(الزائر1)", ""), ("(الهويه1)", ""), ("(الجنسيه1)", ""),
             ("(الزائر2)", ""), ("(الهويه2)", ""), ("(الجنسيه2)", ""),
             ("(اولهم)", p0.name), ("(اخرهم)", pl.name)])
      | _, _ => .error Exn.indexError

/-- The guard of the overflow-table step (src/main.py line 226). -/
def overflowRequired (people : List Person) : Bool := decide (2 < people.length)

/-! ### Document model

A document is a list of tables, a table a list of rows, a row a list of
cells; a cell holds text runs (python-docx flattens a cell's paragraphs into
its `text`, and assigning `cell.text` replaces the content with one
default-styled run while keeping the paragraph alignment). -/

/-- Paragraph alignment values the source uses. -/
inductive Align where
  | center
  | right
  | unset
  deriving DecidableEq

/-- A styled text run. -/
structure Run where
  text : String
  fontName : Option String
  size : Option Nat
  bold : Option Bool
  deriving DecidableEq

/-- A table cell. -/
structure Cell where
  runs : List Run
  align : Align
  deriving DecidableEq

abbrev Row := List Cell
abbrev Table := List Row

/-- A document: its tables plus the settings part touched by `embed_fonts`. -/
structure Doc where
  tables : List Table
  settings : List String
  deriving DecidableEq

/-- python-docx `cell.text` (concatenation of the run texts). -/
def cellText (c : Cell) : String := String.join (c.runs.map Run.text)

/-- python-docx `cell.text = s`: one fresh default-styled run, paragraph
alignment kept. -/
def setCellText (c : Cell) (s : String) : Cell :=
  ⟨[⟨s, none, none, none⟩], c.align⟩

/-- The per-cell substitution loop (src/main.py lines 192-194): for every
replacement entry in insertion order, if the key occurs in the cell text,
write back the text with all occurrences replaced. -/
def substCell (repl : List (String × String)) (c0 : Cell) : Cell :=
  repl.foldl (fun c kv =>
    if occursIn kv.fst (cellText c) then
      setCellText c (replaceAllStr kv.fst kv.snd (cellText c))
    else c) c0

/-- The header-label fragment matched by the style pass (src/main.py line 199). -/
def labelFragment : String := "لموضح هوياتهم بالبيان"

/-- The date-component keys whose values trigger the small-bold style. -/
def dateKeys : List String := ["[D]", "[M]", "[Y]", "[d]", "[m]", "[yyyy]"]

/-- The run-classification pass (src/main.py lines 196-223): classify the
trimmed run text and reassign font, size, boldness and (for the branches
that set it) the paragraph alignment. -/
def restyleRun (repl : List (String × String)) (people : List Person) (day : String)
    (r : Run) (al : Align) : Run × Align :=
  let text := trimStr r.text
  if occursIn labelFragment text then
    ({ r with
        size := some 15
        bold := some false
        fontName := some "Times New Roman (Headings CS)" }, Align.right)
  else if dateKeys.any (fun k => repl.lookup k == some text) then
    let r2 := { r with
        size := some 8
        bold := some true
        fontName := some "Arial (Body CS)" }
    if repl.lookup "[d]" == some text || repl.lookup "[D]" == some text then
      (r2, Align.center)
    else if repl.lookup "[M]" == some text || repl.lookup "[m]" == some text then
      (r2, Align.center)
    else if repl.lookup "[Y]" == some text || repl.lookup "[yyyy]" == some text then
      (r2, Align.right)
    else (r2, al)
  else if people.any (fun p => p.name == text || p.nationality == text || p.id_number == text)
      || day == text then
    ({ r with size := some 15, bold := some true }, Align.right)
  else
    ({ r with
        size := some 15
        bold := some true
        fontName := some "Times New Roman (Headings CS)" }, al)

/-- Apply the classification pass to every run of a cell, threading the
paragraph alignment (the last branch that sets it wins). -/
def restyleCell (repl : List (String × String)) (people : List Person) (day : String)
    (c : Cell) : Cell :=
  let res := c.runs.foldl
    (fun (acc : List Run × Align) r =>
      let ra := restyleRun repl people day r acc.snd
      (acc.fst ++ [ra.fst], ra.snd))
    (([] : List Run), c.align)
  ⟨res.fst, res.snd⟩

/-- `set_cell_style` (src/main.py lines 120-128): strip the cell text (the
assignment collapses the cell to a single run), then set Arial (Body CS),
15 pt, bold on the run and center the paragraph. -/
def set_cell_style (c : Cell) : Cell :=
  ⟨[⟨trimStr (cellText c), some "Arial (Body CS)", some 15, some true⟩], Align.center⟩

/-- A fresh cell of a newly added table row. -/
def emptyCell : Cell := ⟨[], Align.unset⟩

/-- Writing one overflow value: `row.cells[j].text = value` followed by
`set_cell_style(row.cells[j])`. -/
def writeCell (s : String) : Cell := set_cell_style (setCellText emptyCell s)

/-- Fill the three data cells of an overflow row with
`(id_number, nationality, name)` and style them (src/main.py lines 240-246). -/
def writeRow (row : Row) (p : Person) : Row :=
  ((row.set 0 (writeCell p.id_number)).set 1 (writeCell p.nationality)).set 2
    (writeCell p.name)

/-- The overflow-table loop (src/main.py lines 231-246): for person `i`
(1-based), reuse row `i` when `i <= len(table.rows) - 1`, otherwise append a
new row (`add_row` creates `ncols` empty cells); note `len - 1` is truncated
Nat subtraction, which differs from Python only at `i = 0`, never reached
since the loop starts at `i = 1`. -/
def addRowsLoop (ncols : Nat) : Table → Nat → List Person → Table
  | rows, _, [] => rows
  | rows, i, p :: ps =>
      if i ≤ rows.length - 1 then
        addRowsLoop ncols (rows.set i (writeRow (rows.getD i []) p)) (i + 1) ps
      else
        addRowsLoop ncols (rows ++ [writeRow (List.replicate ncols emptyCell) p]) (i + 1) ps

/-- `embed_fonts` (src/main.py lines 47-80): try to append the three
font-embedding settings; any internal failure is caught and reported as
`False`, never raised. -/
def embed_fonts (ok : Bool) (doc : Doc) : Bool × Doc :=
  if ok then
    (true, { doc with settings := doc.settings ++
      ["w:embedSystemFonts", "w:embedTrueTypeFonts", "w:saveSubsetFonts"] })
  else (false, doc)

/-- The substitution and restyle pass over every cell of every table
(src/main.py lines 189-223). -/
def fillTables (replacements : List (String × String)) (people : List Person)
    (day : String) (tmpl : Doc) : Doc :=
  ⟨tmpl.tables.map (fun t => t.map (fun row => row.map
      (fun c => restyleCell replacements people day (substCell replacements c)))),
   tmpl.settings⟩

/-- `process_document` (src/main.py lines 130-253): build the replacement
map (may raise `IndexError`), substitute and restyle every table cell, run
the overflow-table step when more than two visitors (accessing
`doc.tables[1]`, an `IndexError` if absent), then `embed_fonts` and save. -/
def process_document (embedOk : Bool) (di : DateInfo) (people : List Person)
    (tmpl : Doc) : Except Exn Doc :=
  match buildReplacements di people with
  | .error e => .error e
  | .ok replacements =>
      let day := di.2.1
      let doc1 := fillTables replacements people day tmpl
      if overflowRequired people then
        match doc1.tables.get? 1 with
        | none => .error Exn.indexError
        | some t1 =>
            let t1x := addRowsLoop (t1.headD []).length t1 1 people
            let doc2 : Doc := ⟨doc1.tables.set 1 t1x, doc1.settings⟩
            .ok (embed_fonts embedOk doc2).snd
      else .ok (embed_fonts embedOk doc1).snd

/-- C2: the placeholder map follows the count rules: with one person, slot 1
is filled and slot 2 and the first/last-name placeholders are blanked; with
two people, slots 1 and 2 are filled in list order and first/last-name
placeholders are blanked; with more than two, both slots are blanked, the
first/last-name placeholders hold the first and last names in list order,
and the overflow path is enabled. -/
theorem placeholder_map_count_rules (di : DateInfo) (people : List Person) :
    (∀ p, people = [p] →
      ∃ m, buildReplacements di people = .ok m ∧
        m.lookup "(الزائر1)" = some p.name ∧
        m.lookup "(الهويه1)" = some p.id_number ∧
        m.lookup "(الجنسيه1)" = some p.nationality ∧
        m.lookup "(الزائر2)" = some "" ∧
        m.lookup "(الهويه2)" = some "" ∧
        m.lookup "(الجنسيه2)" = some "" ∧
        m.lookup "(اولهم)" = some "" ∧
        m.lookup "(اخرهم)" = some "") ∧
    (∀ p q, people = [p, q] →
      ∃ m, buildReplacements di people = .ok m ∧
        m.lookup "(الزائر1)" = some p.name ∧
        m.lookup "(الهويه1)" = some p.id_number ∧
        m.lookup "(الجنسيه1)" = some p.nationality ∧
        m.lookup "(الزائر2)" = some q.name ∧
        m.lookup "(الهويه2)" = some q.id_number ∧
        m.lookup "(الجنسيه2)" = some q.nationality ∧
        m.lookup "(اولهم)" = some "" ∧
        m.lookup "(اخرهم)" = some "") ∧
    (2 < people.length →
      ∃ m, buildReplacements di people = .ok m ∧
        m.lookup "(الزائر1)" = some "" ∧
        m.lookup "(الهويه1)" = some "" ∧
        m.lookup "(الجنسيه1)" = some "" ∧
        m.lookup "(الزائر2)" = some "" ∧
        m.lookup "(الهويه2)" = some "" ∧
        m.lookup "(الجنسيه2)" = some "" ∧
        m.lookup "(اولهم)" = people.head?.map Person.name ∧
        m.lookup "(اخرهم)" = people.getLast?.map Person.name ∧
        overflowRequired people = true) := by
  refine ⟨?_, ?_, ?_⟩
  · rintro p rfl
    exact ⟨_, rfl, rfl, rfl, rfl, rfl, rfl, rfl, rfl, rfl⟩
  · rintro p q rfl
    exact ⟨_, rfl, rfl, rfl, rfl, rfl, rfl, rfl, rfl, rfl⟩
  · intro hlen
    match people, hlen with
    | a :: b :: c :: t, _ =>
        refine ⟨_, rfl, rfl, rfl, rfl, rfl, rfl, rfl, rfl, rfl, ?_⟩
        simp only [overflowRequired, decide_eq_true_eq, List.length_cons]
        omega

/-- Fixed sample data used by the witnesses. -/
def di0 : DateInfo := ("01/07/1445", "الإثنين", "01/01/2024")

/-- Sample person. -/
def alice : Person := ⟨"Alice", "USA", "123"⟩

/-- Sample person. -/
def bob : Person := ⟨"Bob", "UK", "456"⟩

/-- Sample person. -/
def carl : Person := ⟨"Carl", "DE", "789"⟩

/-- Sample person. -/
def dana : Person := ⟨"Dana", "FR", "321"⟩

/-- Sample list with more than two visitors. -/
def people4 : List Person := [alice, bob, carl, dana]

/-- Witness for C2: the more-than-two-visitors case at a concrete list. -/
theorem placeholder_map_count_rules_witness :
    2 < people4.length ∧
    (∃ m, buildReplacements di0 people4 = .ok m ∧
      m.lookup "(الزائر1)" = some "" ∧
      m.lookup "(الهويه1)" = some "" ∧
      m.lookup "(الجنسيه1)" = some "" ∧
      m.lookup "(الزائر2)" = some "" ∧
      m.lookup "(الهويه2)" = some "" ∧
      m.lookup "(الجنسيه2)" = some "" ∧
      m.lookup "(اولهم)" = people4.head?.map Person.name ∧
      m.lookup "(اخرهم)" = people4.getLast?.map Person.name ∧
      overflowRequired people4 = true) :=
  ⟨by decide, (placeholder_map_count_rules di0 people4).2.2 (by decide)⟩

/-- C8: for every visitor list the replacement map sends the visitor-count
label placeholder to the fixed label string with the two-digit zero-padded
count and the checkbox marker. -/
theorem visitor_count_label (di : DateInfo) (people : List Person)
    (h : people ≠ []) :
    ∃ m, buildReplacements di people = .ok m ∧
      m.lookup "الموضح هوياتهم بالبيان المرفق وعددهم (ع)" =
        some ("الموضح هوياتهم بالبيان المرفق وعددهم (" ++ pad2 people.length ++ ") ☒") := by
  match people with
  | [] => exact absurd rfl h
  | [p] => exact ⟨_, rfl, rfl⟩
  | [p, q] => exact ⟨_, rfl, rfl⟩
  | a :: b :: c :: t => exact ⟨_, rfl, rfl⟩

/-- Witness for C8 with one visitor (count label "01"). -/
theorem visitor_count_label_witness :
    ([alice] ≠ ([] : List Person)) ∧
    ∃ m, buildReplacements di0 [alice] = .ok m ∧
      m.lookup "الموضح هوياتهم بالبيان المرفق وعددهم (ع)" =
        some ("الموضح هوياتهم بالبيان المرفق وعددهم (" ++
          pad2 (List.length [alice]) ++ ") ☒") :=
  ⟨by decide, visitor_count_label di0 [alice] (by decide)⟩

/-- C7: the font-embedding step is advisory: an internal failure is reported
as `false` (never raised), a failing embed leaves the document unchanged,
and whether `process_document` succeeds is independent of the embed result. -/
theorem embed_fonts_advisory (ok1 ok2 : Bool) (di : DateInfo)
    (people : List Person) (tmpl : Doc) (doc : Doc) :
    embed_fonts false doc = (false, doc) ∧
    (embed_fonts ok1 doc).fst = ok1 ∧
    isOkE (process_document ok1 di people tmpl) =
      isOkE (process_document ok2 di people tmpl) := by
  refine ⟨rfl, by cases ok1 <;> rfl, ?_⟩
  cases hb : buildReplacements di people with
  | error e => simp [process_document, hb, isOkE]
  | ok repl =>
      cases hov : overflowRequired people with
      | false => simp [process_document, hb, hov, isOkE]
      | true =>
          cases hg : (fillTables repl people di.2.1 tmpl).tables[1]? with
          | none => simp [process_document, hb, hov, hg, isOkE]
          | some t1 => simp [process_document, hb, hov, hg, isOkE]

/-! ### Properties of the overflow-table loop (claim C4) -/

/-- The written cells of an overflow row, for any source row with at least
three cells. -/
theorem writeRow_of_three {r : Row} (h : 3 ≤ r.length) (p : Person) :
    ∃ rest, writeRow r p =
      writeCell p.id_number :: writeCell p.nationality :: writeCell p.name :: rest := by
  match r, h with
  | c0 :: c1 :: c2 :: rest, _ => exact ⟨rest, rfl⟩

/-- `writeRow` preserves the row length. -/
theorem writeRow_length (r : Row) (p : Person) : (writeRow r p).length = r.length := by
  simp [writeRow]

/-- Row-length bound is preserved by overwriting one row with a written row. -/
theorem rowLenBound_set {rows : Table} {row : Row}
    (h4 : ∀ r ∈ rows, 3 ≤ r.length) (hr : 3 ≤ row.length) (i : Nat) :
    ∀ r ∈ rows.set i row, 3 ≤ r.length := by
  intro r hmem
  rcases List.mem_or_eq_of_mem_set hmem with h | rfl
  · exact h4 r h
  · exact hr

/-- Row-length bound is preserved by appending a written row. -/
theorem rowLenBound_append {rows : Table} {row : Row}
    (h4 : ∀ r ∈ rows, 3 ≤ r.length) (hr : 3 ≤ row.length) :
    ∀ r ∈ rows ++ [row], 3 ≤ r.length := by
  intro r hmem
  rcases List.mem_append.mp hmem with h | h
  · exact h4 r h
  · simp at h; subst h; exact hr

/-- Length of the overflow loop result: existing rows are reused first, so
the final row count is the maximum of the existing count and `i + n`. -/
theorem addRowsLoop_length (ncols : Nat) (ps : List Person) :
    ∀ (rows : Table) (i : Nat), 1 ≤ i → i ≤ rows.length →
      (addRowsLoop ncols rows i ps).length = max rows.length (i + ps.length) := by
  induction ps with
  | nil =>
      intro rows i h1 h2
      simp only [addRowsLoop, List.length_nil]
      omega
  | cons p ps ih =>
      intro rows i h1 h2
      simp only [addRowsLoop, List.length_cons]
      by_cases hc : i ≤ rows.length - 1
      · rw [if_pos hc,
          ih (rows.set i (writeRow (rows.getD i []) p)) (i + 1) (by omega)
            (by simp; omega)]
        simp
        omega
      · rw [if_neg hc,
          ih (rows ++ [writeRow (List.replicate ncols emptyCell) p]) (i + 1) (by omega)
            (by simp; omega)]
        simp
        omega

/-- Rows strictly below the write index are untouched by the loop. -/
theorem addRowsLoop_getElem_lt (ncols : Nat) (ps : List Person) :
    ∀ (rows : Table) (i j : Nat), 1 ≤ i → i ≤ rows.length → j < i →
      (addRowsLoop ncols rows i ps)[j]? = rows[j]? := by
  induction ps with
  | nil => intro rows i j h1 h2 hj; rfl
  | cons p ps ih =>
      intro rows i j h1 h2 hj
      simp only [addRowsLoop]
      by_cases hc : i ≤ rows.length - 1
      · rw [if_pos hc,
          ih _ (i + 1) j (by omega) (by simp; omega) (by omega)]
        exact List.getElem?_set_ne (by omega)
      · rw [if_neg hc,
          ih _ (i + 1) j (by omega) (by simp; omega) (by omega)]
        exact List.getElem?_append_left (by omega)

/-- Rows at or beyond `i + n` are untouched by the loop. -/
theorem addRowsLoop_getElem_ge (ncols : Nat) (ps : List Person) :
    ∀ (rows : Table) (i j : Nat), 1 ≤ i → i ≤ rows.length → i + ps.length ≤ j →
      (addRowsLoop ncols rows i ps)[j]? = rows[j]? := by
  induction ps with
  | nil => intro rows i j h1 h2 hj; rfl
  | cons p ps ih =>
      intro rows i j h1 h2 hj
      simp only [List.length_cons] at hj
      simp only [addRowsLoop]
      by_cases hc : i ≤ rows.length - 1
      · rw [if_pos hc,
          ih _ (i + 1) j (by omega) (by simp; omega) (by omega)]
        exact List.getElem?_set_ne (by omega)
      · rw [if_neg hc,
          ih _ (i + 1) j (by omega) (by simp; omega) (by omega)]
        have hnone : rows[j]? = none := List.getElem?_eq_none (by omega)
        rw [List.getElem?_append_right (by omega), hnone]
        apply List.getElem?_eq_none
        simp
        omega

/-- The row written for the person at position `k` of the remaining list sits
at index `i + k` and its first three cells hold the styled
(id_number, nationality, name) triple. -/
theorem addRowsLoop_getElem_written (ncols : Nat) (ps : List Person) :
    ∀ (rows : Table) (i k : Nat) (p : Person), 1 ≤ i → i ≤ rows.length →
      (∀ r ∈ rows, 3 ≤ r.length) → 3 ≤ ncols → ps[k]? = some p →
      ∃ r, (addRowsLoop ncols rows i ps)[i + k]? = some r ∧
        r[0]? = some (writeCell p.id_number) ∧
        r[1]? = some (writeCell p.nationality) ∧
        r[2]? = some (writeCell p.name) := by
  induction ps with
  | nil => intro rows i k p _ _ _ _ hk; simp at hk
  | cons q ps ih =>
      intro rows i k p h1 h2 h4 hn hk
      cases k with
      | zero =>
          have hq : q = p := by simpa using hk
          subst hq
          simp only [addRowsLoop, Nat.add_zero]
          by_cases hc : i ≤ rows.length - 1
          · rw [if_pos hc]
            have hlt : i < rows.length := by omega
            have hmem : rows.getD i [] ∈ rows := by
              rw [List.getD_eq_getElem rows ([] : Row) hlt]
              exact List.getElem_mem hlt
            obtain ⟨rest, hrow⟩ := writeRow_of_three (h4 _ hmem) q
            rw [addRowsLoop_getElem_lt ncols ps _ (i + 1) i (by omega)
                (by simp; omega) (by omega),
              List.getElem?_set_eq_of_lt _ hlt, hrow]
            exact ⟨_, rfl, by simp, by simp, by simp⟩
          · rw [if_neg hc]
            have hi : i = rows.length := by omega
            obtain ⟨rest, hrow⟩ :=
              writeRow_of_three (r := List.replicate ncols emptyCell) (by simp; omega) q
            rw [addRowsLoop_getElem_lt ncols ps _ (i + 1) i (by omega)
                (by simp; omega) (by omega)]
            subst hi
            rw [List.getElem?_append_right (Nat.le_refl _), Nat.sub_self, hrow]
            exact ⟨_, rfl, by simp, by simp, by simp⟩
      | succ k =>
          have hk2 : ps[k]? = some p := by simpa using hk
          have hidx : i + (k + 1) = (i + 1) + k := by omega
          rw [hidx]
          simp only [addRowsLoop]
          by_cases hc : i ≤ rows.length - 1
          · rw [if_pos hc]
            have hlt : i < rows.length := by omega
            have hsrc : rows.getD i [] ∈ rows := by
              rw [List.getD_eq_getElem rows ([] : Row) hlt]
              exact List.getElem_mem hlt
            have hlen3 : 3 ≤ (writeRow (rows.getD i []) q).length := by
              rw [writeRow_length]; exact h4 _ hsrc
            exact ih _ (i + 1) k p (by omega) (by simp; omega)
              (rowLenBound_set h4 hlen3 i) hn hk2
          · rw [if_neg hc]
            have hlen3 : 3 ≤ (writeRow (List.replicate ncols emptyCell) q).length := by
              rw [writeRow_length]; simp; omega
            exact ih _ (i + 1) k p (by omega) (by simp; omega)
              (rowLenBound_append h4 hlen3) hn hk2

/-- C4: when the overflow path runs (more than two visitors), the loop over
the second table writes, for every visitor in list order, the styled triple
(id_number, nationality, name) into the first three cells of row `k + 1`,
reusing existing rows by index first and appending rows only when the
visitors outnumber the available rows; the header row and any rows beyond
the visitor count are untouched, the written cell style is the fixed
centered bold Arial 15 pt style, and the table does not grow when the
existing rows suffice. -/
theorem overflow_table_write (ncols : Nat) (rows : Table) (people : List Person)
    (h1 : 1 ≤ rows.length) (h2 : 2 < people.length) (h3 : 3 ≤ ncols)
    (h4 : ∀ r ∈ rows, 3 ≤ r.length) :
    (addRowsLoop ncols rows 1 people).length = max rows.length (people.length + 1) ∧
    (∀ k p, people[k]? = some p →
      ∃ r, (addRowsLoop ncols rows 1 people)[k + 1]? = some r ∧
        r[0]? = some (writeCell p.id_number) ∧
        r[1]? = some (writeCell p.nationality) ∧
        r[2]? = some (writeCell p.name)) ∧
    (addRowsLoop ncols rows 1 people)[0]? = rows[0]? ∧
    (∀ j, people.length + 1 ≤ j →
      (addRowsLoop ncols rows 1 people)[j]? = rows[j]?) ∧
    (∀ s, writeCell s =
      ⟨[⟨trimStr s, some "Arial (Body CS)", some 15, some true⟩], Align.center⟩) ∧
    (people.length + 1 ≤ rows.length →
      (addRowsLoop ncols rows 1 people).length = rows.length) := by
  have hlen := addRowsLoop_length ncols people rows 1 (Nat.le_refl 1) h1
  refine ⟨?_, ?_, ?_, ?_, ?_, ?_⟩
  · rw [hlen]; omega
  · intro k p hk
    have hw := addRowsLoop_getElem_written ncols people rows 1 k p (Nat.le_refl 1)
      h1 h4 h3 hk
    rw [Nat.add_comm k 1]
    exact hw
  · exact addRowsLoop_getElem_lt ncols people rows 1 0 (Nat.le_refl 1) h1 Nat.one_pos
  · intro j hj
    exact addRowsLoop_getElem_ge ncols people rows 1 j (Nat.le_refl 1) h1 (by omega)
  · intro s; rfl
  · intro hle; rw [hlen]; omega

/-- A concrete two-row, three-column second table for the witness. -/
def rows0 : Table :=
  [[emptyCell, emptyCell, emptyCell], [emptyCell, emptyCell, emptyCell]]

/-- A concrete three-visitor list for the witness. -/
def people3 : List Person := [alice, bob, carl]

/-- Witness for C4: with three visitors and a two-row table the hypotheses
hold and the row count grows to four (header plus one row per visitor). -/
theorem overflow_table_write_witness :
    (1 ≤ rows0.length ∧ 2 < people3.length ∧ 3 ≤ 3 ∧ ∀ r ∈ rows0, 3 ≤ r.length) ∧
    (addRowsLoop 3 rows0 1 people3).length = max rows0.length (people3.length + 1) :=
  ⟨⟨by decide, by decide, by decide, by decide⟩,
   (overflow_table_write 3 rows0 people3 (by decide) (by decide) (by decide)
      (by decide)).1⟩

/-! ### The endpoint `generate_getpass` (src/main.py lines 453-540)

External effects are oracles: `pdfOk i` is the success of the `unoconv`
conversion of document `i`, `mergePdfOk` the success of the PyPDF2 merge,
`zipOk` the success of ZIP packaging, `embedOk` the success of the internal
font-embedding operation, and `toHijri` the external calendar routine.
Generated artifacts carry the 0-based date indices they were built from. -/

/-- Oracles for the external collaborators of one request. -/
structure Env where
  toHijri : Nat → Nat → Nat → HijriDate
  embedOk : Bool
  pdfOk : Nat → Bool
  mergePdfOk : Bool
  zipOk : Bool

/-- The artifact finally streamed back. -/
inductive Artifact where
  | pdfMerged (parts : List Nat)
  | pdfSingle (index : Nat)
  | docxSingle (index : Nat)
  | zipArchive (parts : List Nat)
  deriving DecidableEq

/-- The HTTP response: a file with a media type, or an error status with a
detail string. -/
inductive Resp where
  | file (artifact : Artifact) (mediaType : String)
  | err (status : Nat) (detail : String)
  deriving DecidableEq

/-- The Word-document media type used by the endpoint. -/
def docxMime : String :=
  "application/vnd.openxmlformats-officedocument.wordprocessingml.document"

/-- The per-date loop (src/main.py lines 464-485): convert the date (a
`ValueError` is caught and re-raised as `HTTPException(400, f"Invalid date
format: {str(e)}")`), process the document (an `IndexError` propagates), and
attempt PDF conversion, collecting the docx and pdf indices and the
`conversion_success` flag. -/
def genLoop (env : Env) (people : List Person) (tmpl : Doc) :
    List String → Nat → List Nat → List Nat → Bool →
      Except Exn (List Nat × List Nat × Bool)
  | [], _, docx, pdfs, flag => .ok (docx, pdfs, flag)
  | dstr :: rest, i, docx, pdfs, flag =>
      match convert_to_hijri env.toHijri dstr with
      | .error msg => .error (Exn.httpExc 400 ("Invalid date format: " ++ msg))
      | .ok di =>
          match process_document env.embedOk di people tmpl with
          | .error e => .error e
          | .ok _ =>
              if env.pdfOk i then
                genLoop env people tmpl rest (i + 1) (docx ++ [i]) (pdfs ++ [i]) flag
              else
                genLoop env people tmpl rest (i + 1) (docx ++ [i]) pdfs false

/-- The Word fallback (src/main.py lines 515-533): one document is returned
directly; several are packaged as a ZIP; a ZIP failure falls through to the
final `HTTPException(500, "Failed to generate documents")`. -/
def fallbackDocx (env : Env) (docx : List Nat) : Except Exn (Resp × List String) :=
  if docx.length = 1 then
    .ok (Resp.file (Artifact.docxSingle (docx.headD 0)) docxMime, ["getpass.docx"])
  else if env.zipOk then
    .ok (Resp.file (Artifact.zipArchive docx) "application/zip",
      ["getpass_documents.zip"])
  else .error (Exn.httpExc 500 "Failed to generate documents")

/-- The artifact consolidation (src/main.py lines 492-536): merged PDF when
all conversions succeeded and several PDFs exist (a merge failure drops to
the Word fallback), the single PDF when exactly one, the Word fallback when
some conversion failed, otherwise the final 500. -/
def consolidate (env : Env) (docx pdfs : List Nat) (flag : Bool) :
    Except Exn (Resp × List String) :=
  if flag = true ∧ 1 < pdfs.length then
    if env.mergePdfOk then
      .ok (Resp.file (Artifact.pdfMerged pdfs) "application/pdf", ["getpass.pdf"])
    else fallbackDocx env docx
  else if flag = true ∧ pdfs.length = 1 then
    .ok (Resp.file (Artifact.pdfSingle (pdfs.headD 0)) "application/pdf",
      ["getpass.pdf"])
  else if flag = false then fallbackDocx env docx
  else .error (Exn.httpExc 500 "Failed to generate documents")

/-- The endpoint (src/main.py lines 453-540).  The whole body sits inside
`except Exception`, which also catches the `HTTPException`s raised inside
(FastAPI's `HTTPException` subclasses `Exception`) and re-raises
`HTTPException(500, f"Internal Server Error: {str(e)}")`.  The second
component is the list of files written under the output directory. -/
def generate_getpass (env : Env) (tmpl : Doc) (people : List Person)
    (dates : List String) : Resp × List String :=
  match (genLoop env people tmpl dates 0 [] [] true).bind
      (fun st => consolidate env st.1 st.2.1 st.2.2) with
  | .ok r => r
  | .error e => (Resp.err 500 ("Internal Server Error: " ++ excStr e), [])

/-- A success of an `Except` computation yields a value. -/
theorem isOkE_exists {ε α : Type} {e : Except ε α} (h : isOkE e = true) :
    ∃ a, e = .ok a := by
  cases e with
  | ok a => exact ⟨a, rfl⟩
  | error e => simp [isOkE] at h

/-- The 0-based date indices processed from position `i` on. -/
def idxFrom (i n : Nat) : List Nat := (List.range n).map (fun k => i + k)

/-- Unfolding `idxFrom` one step. -/
theorem idxFrom_succ (i n : Nat) : idxFrom i (n + 1) = i :: idxFrom (i + 1) n := by
  unfold idxFrom
  rw [List.range_succ_eq_map, List.map_cons, List.map_map]
  have h2 : (fun k => i + k) ∘ Nat.succ = fun k => (i + 1) + k := by
    funext k; simp [Function.comp]; omega
  rw [h2]
  simp

/-- The indices from 0 are `List.range`. -/
theorem idxFrom_zero (n : Nat) : idxFrom 0 n = List.range n := by
  simp [idxFrom]

/-- Characterization of the per-date loop when every date parses and
document processing succeeds: the docx list collects every index in order,
the pdf list keeps the indices whose conversion succeeded, and the flag
records whether all conversions succeeded. -/
theorem genLoop_eq (env : Env) (people : List Person) (tmpl : Doc)
    (ds : List String) :
    ∀ (i : Nat) (docx pdfs : List Nat) (flag : Bool),
      (∀ s ∈ ds, (fromisoformat (replaceZ s)).isSome = true) →
      (∀ di, isOkE (process_document env.embedOk di people tmpl) = true) →
      genLoop env people tmpl ds i docx pdfs flag =
        .ok (docx ++ idxFrom i ds.length,
             pdfs ++ (idxFrom i ds.length).filter env.pdfOk,
             flag && (idxFrom i ds.length).all env.pdfOk) := by
  induction ds with
  | nil =>
      intro i docx pdfs flag _ _
      simp [genLoop, idxFrom]
  | cons s rest ih =>
      intro i docx pdfs flag h1 h2
      have hs : (fromisoformat (replaceZ s)).isSome = true := h1 s (by simp)
      obtain ⟨ymd, hy⟩ := Option.isSome_iff_exists.mp hs
      obtain ⟨y, m, d⟩ := ymd
      have hc : convert_to_hijri env.toHijri s = .ok
          (pad2 (env.toHijri y m d).day ++ "/" ++ pad2 (env.toHijri y m d).month ++ "/" ++
             Nat.repr (env.toHijri y m d).year,
           ARABIC_DAY_NAMES.getD ((pyWeekday y m d + 1) % 7) "",
           pad2 d ++ "/" ++ pad2 m ++ "/" ++ Nat.repr y) := by
        unfold convert_to_hijri; rw [hy]
      have hrest : ∀ x ∈ rest, (fromisoformat (replaceZ x)).isSome = true :=
        fun x hx => h1 x (by simp [hx])
      obtain ⟨doc, hdoc⟩ := isOkE_exists (h2
          (pad2 (env.toHijri y m d).day ++ "/" ++ pad2 (env.toHijri y m d).month ++ "/" ++
             Nat.repr (env.toHijri y m d).year,
           ARABIC_DAY_NAMES.getD ((pyWeekday y m d + 1) % 7) "",
           pad2 d ++ "/" ++ pad2 m ++ "/" ++ Nat.repr y))
      simp only [genLoop]
      simp only [hc, hdoc]
      cases hpdf : env.pdfOk i with
      | true =>
          rw [if_pos rfl, ih (i + 1) (docx ++ [i]) (pdfs ++ [i]) flag hrest h2]
          simp [List.length_cons, idxFrom_succ, hpdf, List.append_assoc]
      | false =>
          rw [if_neg (by simp [hpdf]), ih (i + 1) (docx ++ [i]) pdfs false hrest h2]
          simp [List.length_cons, idxFrom_succ, hpdf, List.append_assoc]

/-- Consolidation when all conversions succeeded, several PDFs exist and the
merge succeeds. -/
theorem consolidate_merge_ok (env : Env) (docx pdfs : List Nat)
    (h1 : 1 < pdfs.length) (h2 : env.mergePdfOk = true) :
    consolidate env docx pdfs true =
      .ok (Resp.file (Artifact.pdfMerged pdfs) "application/pdf", ["getpass.pdf"]) := by
  unfold consolidate
  rw [if_pos ⟨rfl, h1⟩, if_pos h2]

/-- Consolidation when all conversions succeeded and exactly one PDF exists. -/
theorem consolidate_single_pdf (env : Env) (docx pdfs : List Nat)
    (h1 : pdfs.length = 1) :
    consolidate env docx pdfs true =
      .ok (Resp.file (Artifact.pdfSingle (pdfs.headD 0)) "application/pdf",
        ["getpass.pdf"]) := by
  unfold consolidate
  rw [if_neg (by rintro ⟨_, hl⟩; omega), if_pos ⟨rfl, h1⟩]

/-- Consolidation when some conversion failed: the Word fallback runs. -/
theorem consolidate_fallback (env : Env) (docx pdfs : List Nat) :
    consolidate env docx pdfs false = fallbackDocx env docx := by
  unfold consolidate
  rw [if_neg (by rintro ⟨h, _⟩; exact Bool.false_ne_true h),
    if_neg (by rintro ⟨h, _⟩; exact Bool.false_ne_true h), if_pos rfl]

/-- The Word fallback with exactly one document. -/
theorem fallbackDocx_single (env : Env) (docx : List Nat) (h : docx.length = 1) :
    fallbackDocx env docx =
      .ok (Resp.file (Artifact.docxSingle (docx.headD 0)) docxMime,
        ["getpass.docx"]) := by
  unfold fallbackDocx
  rw [if_pos h]

/-- The Word fallback with several documents and a successful ZIP. -/
theorem fallbackDocx_zip (env : Env) (docx : List Nat) (h1 : docx.length ≠ 1)
    (h2 : env.zipOk = true) :
    fallbackDocx env docx =
      .ok (Resp.file (Artifact.zipArchive docx) "application/zip",
        ["getpass_documents.zip"]) := by
  unfold fallbackDocx
  rw [if_neg h1, if_pos h2]

/-- The Word fallback when the ZIP also fails: the final 500 is raised. -/
theorem fallbackDocx_fail (env : Env) (docx : List Nat) (h1 : docx.length ≠ 1)
    (h2 : env.zipOk = false) :
    fallbackDocx env docx = .error (Exn.httpExc 500 "Failed to generate documents") := by
  unfold fallbackDocx
  rw [if_neg h1, if_neg (by simp [h2])]

/-- When every element passes the filter predicate, filtering is the
identity. -/
theorem filter_of_all {p : Nat → Bool} {l : List Nat} (h : l.all p = true) :
    l.filter p = l :=
  List.filter_eq_self.mpr (List.all_eq_true.mp h)

/-- C3: the artifact consolidation follows the strict priority order: all
conversions succeeded with several PDFs and a successful merge yields the
merged PDF preserving input order; all succeeded with exactly one PDF yields
that single PDF unmerged; a failed conversion yields the Word documents (the
single document directly, otherwise a ZIP with one entry per date); and when
the last fallback also fails the endpoint surfaces the fatal
generation-failure 500. -/
theorem consolidation_priority (env : Env) (tmpl : Doc) (people : List Person)
    (dates : List String)
    (hdates : ∀ s ∈ dates, (fromisoformat (replaceZ s)).isSome = true)
    (hproc : ∀ di, isOkE (process_document env.embedOk di people tmpl) = true) :
    ((List.range dates.length).all env.pdfOk = true → 1 < dates.length →
      env.mergePdfOk = true →
      generate_getpass env tmpl people dates =
        (Resp.file (Artifact.pdfMerged (List.range dates.length)) "application/pdf",
         ["getpass.pdf"])) ∧
    ((List.range dates.length).all env.pdfOk = true → dates.length = 1 →
      generate_getpass env tmpl people dates =
        (Resp.file (Artifact.pdfSingle 0) "application/pdf", ["getpass.pdf"])) ∧
    ((List.range dates.length).all env.pdfOk = false → dates.length = 1 →
      generate_getpass env tmpl people dates =
        (Resp.file (Artifact.docxSingle 0) docxMime, ["getpass.docx"])) ∧
    ((List.range dates.length).all env.pdfOk = false → 1 < dates.length →
      env.zipOk = true →
      generate_getpass env tmpl people dates =
        (Resp.file (Artifact.zipArchive (List.range dates.length)) "application/zip",
         ["getpass_documents.zip"])) ∧
    ((List.range dates.length).all env.pdfOk = false → 1 < dates.length →
      env.zipOk = false →
      generate_getpass env tmpl people dates =
        (Resp.err 500 "Internal Server Error: 500: Failed to generate documents",
         [])) := by
  have hloop := genLoop_eq env people tmpl dates 0 [] [] true hdates hproc
  have hgen : generate_getpass env tmpl people dates =
      match consolidate env (List.range dates.length)
          ((List.range dates.length).filter env.pdfOk)
          ((List.range dates.length).all env.pdfOk) with
      | .ok r => r
      | .error e => (Resp.err 500 ("Internal Server Error: " ++ excStr e), []) := by
    unfold generate_getpass
    rw [hloop]
    simp [Except.bind, idxFrom_zero]
  refine ⟨?_, ?_, ?_, ?_, ?_⟩
  · intro hall hn hm
    rw [hgen, hall, filter_of_all hall,
      consolidate_merge_ok env _ _ (by simp [List.length_range]; omega) hm]
  · intro hall hn
    rw [hgen, hall, filter_of_all hall,
      consolidate_single_pdf env _ _ (by simp [List.length_range, hn])]
    simp [hn]
    decide
  · intro hall hn
    rw [hgen, hall, consolidate_fallback,
      fallbackDocx_single env _ (by simp [List.length_range, hn])]
    simp [hn]
    decide
  · intro hall hn hz
    rw [hgen, hall, consolidate_fallback,
      fallbackDocx_zip env _ (by simp [List.length_range]; omega) hz]
  · intro hall hn hz
    rw [hgen, hall, consolidate_fallback,
      fallbackDocx_fail env _ (by simp [List.length_range]; omega) hz]
    decide

/-- A trivial template document used by witnesses. -/
def tmpl0 : Doc := ⟨[], []⟩

/-- A concrete oracle environment whose second date conversion fails and
whose ZIP packaging succeeds. -/
def env1 : Env := ⟨th0, true, fun i => i == 0, true, true⟩

/-- Witness for C3: two dates, one failed conversion, ZIP fallback. -/
theorem consolidation_priority_witness :
    (∀ s ∈ ["2024-01-01", "2024-01-02"], (fromisoformat (replaceZ s)).isSome = true) ∧
    ((List.range (List.length ["2024-01-01", "2024-01-02"])).all env1.pdfOk = false →
      1 < List.length ["2024-01-01", "2024-01-02"] → env1.zipOk = true →
      generate_getpass env1 tmpl0 [alice] ["2024-01-01", "2024-01-02"] =
        (Resp.file (Artifact.zipArchive
            (List.range (List.length ["2024-01-01", "2024-01-02"]))) "application/zip",
         ["getpass_documents.zip"])) :=
  ⟨by decide,
   (consolidation_priority env1 tmpl0 [alice] ["2024-01-01", "2024-01-02"]
      (by decide) (fun di => rfl)).2.2.2.1⟩

/-- C1 (code behavior at the failing input): a request whose date string
cannot be parsed makes `convert_to_hijri` raise `ValueError`, the loop
re-raises `HTTPException(400, ...)`, but the blanket `except Exception`
catches that `HTTPException` too and the endpoint actually answers HTTP 500
with the 400 wrapped into the detail; no output file is written. -/
theorem malformed_date_response :
    generate_getpass env1 tmpl0 [alice] ["not-a-date"] =
      (Resp.err 500
        "Internal Server Error: 400: Invalid date format: Invalid date format: not-a-date",
       []) := by
  decide

/-- C9: with an empty people list and a parsable date, the replacement
builder takes the more-than-two-visitors branch and fails on `people[0]`
(`IndexError`), so document processing raises, the endpoint answers HTTP 500
with the `IndexError` text, and no document and no output file is
produced. -/
theorem empty_people_http500 (env : Env) (tmpl : Doc) (s : String)
    (h : (fromisoformat (replaceZ s)).isSome = true) :
    (∀ di, buildReplacements di ([] : List Person) = .error Exn.indexError) ∧
    (∀ di, process_document env.embedOk di ([] : List Person) tmpl =
      .error Exn.indexError) ∧
    generate_getpass env tmpl [] [s] =
      (Resp.err 500 "Internal Server Error: list index out of range", []) := by
  refine ⟨fun di => rfl, fun di => rfl, ?_⟩
  obtain ⟨ymd, hy⟩ := Option.isSome_iff_exists.mp h
  obtain ⟨y, m, d⟩ := ymd
  have hc : convert_to_hijri env.toHijri s = .ok
      (pad2 (env.toHijri y m d).day ++ "/" ++ pad2 (env.toHijri y m d).month ++ "/" ++
         Nat.repr (env.toHijri y m d).year,
       ARABIC_DAY_NAMES.getD ((pyWeekday y m d + 1) % 7) "",
       pad2 d ++ "/" ++ pad2 m ++ "/" ++ Nat.repr y) := by
    unfold convert_to_hijri; rw [hy]
  unfold generate_getpass
  simp only [genLoop, hc]
  rfl

/-- Witness for C9 at a concrete parsable date. -/
theorem empty_people_http500_witness :
    (fromisoformat (replaceZ "2024-01-01")).isSome = true ∧
    ((∀ di, buildReplacements di ([] : List Person) = .error Exn.indexError) ∧
     (∀ di, process_document env1.embedOk di ([] : List Person) tmpl0 =
       .error Exn.indexError) ∧
     generate_getpass env1 tmpl0 [] ["2024-01-01"] =
       (Resp.err 500 "Internal Server Error: list index out of range", [])) :=
  ⟨by decide, empty_people_http500 env1 tmpl0 "2024-01-01" (by decide)⟩

/-- C10 (amended): with an empty dates list the loop body never runs — no
document is generated, no conversion is attempted, the success flag stays
true with zero PDFs — every return branch is skipped and the endpoint
answers HTTP 500; the inner `HTTPException(500, "Failed to generate
documents")` is caught by the blanket handler, so the transmitted detail is
the wrapped "Internal Server Error: 500: Failed to generate documents". -/
theorem empty_dates_http500 (env : Env) (tmpl : Doc) (people : List Person) :
    genLoop env people tmpl [] 0 [] [] true = .ok ([], [], true) ∧
    generate_getpass env tmpl people [] =
      (Resp.err 500 "Internal Server Error: 500: Failed to generate documents",
       []) :=
  ⟨rfl, rfl⟩

/-- Counterexample for C10 as stated: at a concrete request the transmitted
error detail is the wrapped string, not the bare message
"Failed to generate documents" the claim asserts. -/
theorem empty_dates_message_cex :
    generate_getpass env1 tmpl0 [alice] [] =
      (Resp.err 500 "Internal Server Error: 500: Failed to generate documents",
       []) ∧
    "Internal Server Error: 500: Failed to generate documents" ≠
      "Failed to generate documents" :=
  ⟨rfl, by decide⟩

end GetPass
